import Mathlib

/-!
Verification of the raster geometry and merge engine of the
sar-pyrosar-nci repository (`sar_antarctica/utils/raster.py` and the
antimeridian helpers exercised by `tests/sar_antarctica/test_dem.py`).

The embedding works over exact rationals: Python floats become `ℚ`,
Python `int(x)` becomes truncation toward zero, numpy arrays are
modelled by their shape together with a flat data list, and rasterio
profiles become a record of the fields the code reads or writes.
Fallible code returns `Except`; the raster module raises Python
exceptions, modelled by `PyError` (AssertionError, ValueError,
IndexError), while the window helpers keep plain string errors
(rasterio WindowError). -/

/-- A non-rotated affine geotransform, as stored in a rasterio profile:
`a` is the pixel width (transform.a), `e` the signed pixel height
(transform.e, negative for north-up), `c`/`f` the origin. The code under
verification never uses the rotation terms b and d. -/
structure Affine where
  a : ℚ
  e : ℚ
  c : ℚ
  f : ℚ
deriving DecidableEq

/-- rasterio `array_bounds(height, width, transform)`: returns
(west, south, east, north) = (c, f + height*e, c + width*a, f). -/
def array_bounds (height width : ℕ) (t : Affine) : ℚ × ℚ × ℚ × ℚ :=
  (t.c, t.f + (height : ℚ) * t.e, t.c + (width : ℚ) * t.a, t.f)

/-- rasterio `from_origin(west, north, xsize, ysize)`:
the transform with pixel width `xsize` and pixel height `-ysize`. -/
def from_origin (west north xsize ysize : ℚ) : Affine :=
  ⟨xsize, -ysize, west, north⟩

/-- Python `int(x)` on a float: truncation toward zero. -/
def py_int (x : ℚ) : ℤ :=
  if 0 ≤ x then ⌊x⌋ else ⌈x⌉

/-- Whether an `Except` computation raised. -/
def isErr {ε α : Type} : Except ε α → Bool
  | Except.error _ => true
  | Except.ok _ => false

/-- The geometric output of `expand_raster_to_bounds`
(raster.py lines 88-116): the adjusted bounds and the new raster size. -/
structure ExpandedGeom where
  left : ℚ
  bottom : ℚ
  right : ℚ
  top : ℚ
  width : ℤ
  height : ℤ
deriving DecidableEq

/-- The bounds arithmetic of `expand_raster_to_bounds`
(raster.py lines 88-116), translated line by line:
pixel counts via Python `int` of `abs(trg-src)/res` (lines 94-97),
candidate bounds (lines 100-103), the keep-source guards exactly as
written, including the `src_top < trg_top` comparison on line 109,
and the final width/height (lines 112-113). -/
def expand_bounds (src_left src_bottom src_right src_top : ℚ)
    (trg_left trg_bottom trg_right trg_top : ℚ)
    (lon_res lat_res : ℚ) : ExpandedGeom :=
  let new_left_pixels := py_int (|trg_left - src_left| / lon_res)
  let new_right_pixels := py_int (|trg_right - src_right| / lon_res)
  let new_bottom_pixels := py_int (|trg_bottom - src_bottom| / lat_res)
  let new_top_pixels := py_int (|trg_top - src_top| / lat_res)
  let new_trg_left0 := src_left - (new_left_pixels : ℚ) * lon_res
  let new_trg_right0 := src_right + (new_right_pixels : ℚ) * lon_res
  let new_trg_bottom0 := src_bottom - (new_bottom_pixels : ℚ) * lat_res
  let new_trg_top0 := src_top + (new_top_pixels : ℚ) * lat_res
  let new_trg_left := if src_left < trg_left then src_left else new_trg_left0
  let new_trg_right := if src_right > trg_right then src_right else new_trg_right0
  let new_trg_bottom := if src_bottom < trg_bottom then src_bottom else new_trg_bottom0
  let new_trg_top := if src_top < trg_top then src_top else new_trg_top0
  let new_width := py_int ((new_trg_right - new_trg_left) / lon_res)
  let new_height := py_int ((new_trg_top - new_trg_bottom) / lat_res)
  ⟨new_trg_left, new_trg_bottom, new_trg_right, new_trg_top, new_width, new_height⟩

example : (expand_bounds 0 0 10 10 (-1.5) 0 10 10 1 1).left = -1 := by
  norm_num [expand_bounds, py_int, abs]

example : (expand_bounds 0 0 10 10 0 0 10 5 1 1).top = 15 := by
  norm_num [expand_bounds, py_int, abs]

/-- A rasterio profile, restricted to the fields the code under
verification reads or writes; `crs` and `driver` stand for the fields
the code copies but never touches. `nodata` is `none` for Python None. -/
structure Profile where
  width : ℕ
  height : ℕ
  transform : Affine
  dtype : String
  nodata : Option ℚ
  count : ℕ
  crs : String
  driver : String
deriving DecidableEq

/-- A numpy array, modelled by its shape and a flat element list. -/
structure NpArray where
  shape : List ℕ
  data : List ℚ
deriving DecidableEq

/-- `np.full((1, height, width), fill_value)` (raster.py line 125). -/
def np_full_1hw (height width : ℕ) (fill_value : ℚ) : NpArray :=
  ⟨[1, height, width], List.replicate (height * width) fill_value⟩

/-- The argument-validation assert of `expand_raster_to_bounds`
(raster.py line 76): `src_path or (src_profile and src_array is not
None) or src_profile`, on the truthiness of the three arguments. -/
def expand_assert_ok (src_path_given src_profile_given src_array_given : Bool) : Bool :=
  src_path_given || (src_profile_given && src_array_given) || src_profile_given

/-- The Python exception classes raised by the code under
verification: the assert on raster.py line 76 raises AssertionError,
the merge checks on lines 177-189 raise ValueError, and an empty list
subscript raises IndexError. -/
inductive PyError where
  | assertionError (msg : String)
  | valueError (msg : String)
  | indexError (msg : String)
deriving DecidableEq

/-- One invocation of `merge_arrays_with_geometadata`, recording the
arguments it is called with (raster.py lines 129-136). -/
structure MergeCall where
  arrays : List NpArray
  profiles : List Profile
  resampling : String
  nodata : Option ℚ
  dtype : Option String
  method : String
deriving DecidableEq

/-- The output of the external `rasterio.merge.merge` call
(raster.py lines 195-197), treated as an oracle: a band-first 3-D array
of shape (count, height, width) and the merged transform. Only its
shape and transform flow into the profile the code builds. -/
structure MergedRaster where
  count : ℕ
  height : ℕ
  width : ℕ
  transform : Affine
deriving DecidableEq

/-- What `expand_raster_to_bounds` returns on success: either the
result of the merge call of lines 129-136 (the call it makes together
with the pair the merge returned), or the fill array and profile
unchanged (lines 137-140). -/
inductive ExpandOutcome where
  | viaMerge (call : MergeCall) (result : MergedRaster × Profile)
  | fillOnly (arr : NpArray) (profile : Profile)
deriving DecidableEq

/-- The expansion geometry computed by `expand_raster_to_bounds` from a
source profile and target bounds (raster.py lines 85-113): source
bounds from `array_bounds`, resolutions from the transform, then
`expand_bounds`. -/
def expand_geom (trg_bounds : ℚ × ℚ × ℚ × ℚ) (p : Profile) : ExpandedGeom :=
  let ab := array_bounds p.height p.width p.transform
  let lon_res := |p.transform.a|
  let lat_res := |p.transform.e|
  expand_bounds ab.1 ab.2.1 ab.2.2.1 ab.2.2.2
    trg_bounds.1 trg_bounds.2.1 trg_bounds.2.2.1 trg_bounds.2.2.2 lon_res lat_res

/-- The fill profile built by `expand_raster_to_bounds`
(raster.py lines 116-124): the source profile with width, height and
transform replaced; the transform comes from `from_origin` at the new
top-left corner. -/
def fill_profile_of (trg_bounds : ℚ × ℚ × ℚ × ℚ) (p : Profile) : Profile :=
  let g := expand_geom trg_bounds p
  { p with
    width := g.width.toNat
    height := g.height.toNat
    transform := from_origin g.left g.top (|p.transform.a|) (|p.transform.e|) }

/-- The fill array built by `expand_raster_to_bounds`
(raster.py line 125). -/
def fill_array_of (trg_bounds : ℚ × ℚ × ℚ × ℚ) (p : Profile) (fill_value : ℚ) : NpArray :=
  let g := expand_geom trg_bounds p
  np_full_1hw g.height.toNat g.width.toNat fill_value

/-- The 2-D promotion step of `merge_arrays_with_geometadata`
(raster.py lines 183-186): when the first array is 2-D, every array
gains a leading singleton band axis. -/
def promote_arrays (arrays : List NpArray) : List NpArray :=
  match arrays.head? with
  | none => arrays
  | some a0 =>
    if a0.shape.length = 2 then arrays.map (fun arr => ⟨1 :: arr.shape, arr.data⟩)
    else arrays

/-- `merge_arrays_with_geometadata` (raster.py lines 168-212).
The rasterio merge itself is the oracle parameter `merged`; everything
else is translated line by line: the dimensionality check on the first
array (lines 177-179), the same-dimensionality check via the
cardinality of the set of ndims (lines 180-181), the 2-D promotion
(lines 183-186), the length check (lines 188-189), and the profile
construction from a copy of the first profile (lines 199-207).
An empty `arrays` list raises on the `arrays[0]` access of line 177. -/
def merge_arrays_with_geometadata (arrays : List NpArray) (profiles : List Profile)
    (resampling : String) (nodata : Option ℚ) (dtype : Option String) (method : String)
    (merged : MergedRaster) : Except PyError (MergedRaster × Profile) :=
  match arrays.head? with
  | none => Except.error (PyError.indexError "list index out of range")
  | some a0 =>
    if ¬ (a0.shape.length = 2 ∨ a0.shape.length = 3) then
      Except.error (PyError.valueError
        "Currently arrays must be in BIP format i.e. channels x height x width or flat array")
    else if (arrays.map (fun arr => arr.shape.length)).toFinset.card ≠ 1 then
      Except.error (PyError.valueError
        "All arrays must have same number of dimensions i.e. 2 or 3")
    else
      let arrays_input := promote_arrays arrays
      if arrays.length ≠ profiles.length then
        Except.error (PyError.valueError
          "Length of arrays and profiles needs to be the same")
      else
        match profiles.head? with
        | none => Except.error (PyError.indexError "list index out of range")
        | some p0 =>
          let prof1 := { p0 with
            transform := merged.transform
            count := merged.count
            height := merged.height
            width := merged.width }
          let prof2 := match nodata with
            | some nd => { prof1 with nodata := some nd }
            | none => prof1
          let prof3 := match dtype with
            | some dt => { prof2 with dtype := dt }
            | none => prof2
          let _ := arrays_input
          Except.ok (merged, prof3)

/-- The source-array branch of `expand_raster_to_bounds`
(raster.py lines 127-136): the nested call of
`merge_arrays_with_geometadata` on [src_array, fill_array] with
resampling bilinear, nodata and dtype from the source profile and
method first. The merge checks run on the actual arrays, so an
exception raised inside the merge propagates out of the function; on
success the outcome records the call and the pair the merge returned
(the pair the function returns on line 145). -/
def expand_merge_step (trg_bounds : ℚ × ℚ × ℚ × ℚ) (src_profile : Profile)
    (src_array : NpArray) (fill_value : ℚ) (merged : MergedRaster) :
    Except PyError ExpandOutcome :=
  let fill_profile := fill_profile_of trg_bounds src_profile
  let fill_array := fill_array_of trg_bounds src_profile fill_value
  let call : MergeCall :=
    { arrays := [src_array, fill_array]
      profiles := [src_profile, fill_profile]
      resampling := "bilinear"
      nodata := src_profile.nodata
      dtype := some src_profile.dtype
      method := "first" }
  match merge_arrays_with_geometadata call.arrays call.profiles call.resampling
      call.nodata call.dtype call.method merged with
  | Except.error e => Except.error e
  | Except.ok r => Except.ok (ExpandOutcome.viaMerge call r)

/-- `expand_raster_to_bounds` (raster.py lines 61-145). The file at
`src_path` is modelled by its contents: the array `src.read(1)` returns
(a single band, hence 2-D of shape (height, width)) and the profile of
the dataset (whose `src.bounds` equal the `array_bounds` of its size
and transform). The final save step only writes the returned pair to
disk, so it does not appear. When a source array is available the
nested merge of lines 129-136 is composed via `expand_merge_step`, so
its shape checks run and its exceptions propagate; the numeric merge
output is the oracle `merged`. -/
def expand_raster_to_bounds (trg_bounds : ℚ × ℚ × ℚ × ℚ)
    (src_path : Option (NpArray × Profile))
    (src_profile0 : Option Profile) (src_array0 : Option NpArray)
    (fill_value : ℚ) (merged : MergedRaster) : Except PyError ExpandOutcome :=
  match expand_assert_ok src_path.isSome src_profile0.isSome src_array0.isSome with
  | false =>
    Except.error (PyError.assertionError
      "Either src_path, src_array and src_profile, or src_profile must be provided.")
  | true =>
    let resolved : Option NpArray × Option Profile :=
      match src_path with
      | some ap => (some ap.1, some ap.2)
      | none => (src_array0, src_profile0)
    match resolved.2 with
    | none =>
      Except.error (PyError.valueError
        "unreachable: the assert guarantees a profile is available")
    | some src_profile =>
      match resolved.1 with
      | some src_array =>
        expand_merge_step trg_bounds src_profile src_array fill_value merged
      | none =>
        Except.ok (ExpandOutcome.fillOnly (fill_array_of trg_bounds src_profile fill_value)
          (fill_profile_of trg_bounds src_profile))

/-- A rasterio window in fractional pixel coordinates. -/
structure Window where
  col_off : ℚ
  row_off : ℚ
  width : ℚ
  height : ℚ
deriving DecidableEq

/-- rasterio `windows.from_bounds(left, bottom, right, top, transform)`
for a non-rotated transform: the inverse transform applied to the two
corners, with min/max so offsets are the smaller coordinates and sizes
are non-negative. -/
def window_from_bounds (left bottom right top : ℚ) (t : Affine) : Window :=
  let row1 := (top - t.f) / t.e
  let row2 := (bottom - t.f) / t.e
  let col1 := (left - t.c) / t.a
  let col2 := (right - t.c) / t.a
  ⟨min col1 col2, min row1 row2, max col1 col2 - min col1 col2, max row1 row2 - min row1 row2⟩

/-- rasterio `windows.intersect` for two windows: the row ranges and
the column ranges each overlap strictly. -/
def window_intersects (w1 w2 : Window) : Prop :=
  (w1.row_off < w2.row_off + w2.height ∧ w1.row_off + w1.height > w2.row_off) ∧
  (w1.col_off < w2.col_off + w2.width ∧ w1.col_off + w1.width > w2.col_off)

instance (w1 w2 : Window) : Decidable (window_intersects w1 w2) := by
  unfold window_intersects
  infer_instance

/-- The intersection rectangle of two windows, computed as rasterio
`windows.intersection` does, but without the intersect check: starts
are the maxima of the offsets, stops the minima of the offset+size. -/
def window_overlap (w1 w2 : Window) : Window :=
  let row_start := max w1.row_off w2.row_off
  let row_stop := min (w1.row_off + w1.height) (w2.row_off + w2.height)
  let col_start := max w1.col_off w2.col_off
  let col_stop := min (w1.col_off + w1.width) (w2.col_off + w2.width)
  ⟨col_start, row_start, col_stop - col_start, row_stop - row_start⟩

/-- rasterio `Window.intersection`: raises when the windows do not
intersect, otherwise returns the overlap rectangle. -/
def window_intersection (w1 w2 : Window) : Except String Window :=
  if window_intersects w1 w2 then Except.ok (window_overlap w1 w2)
  else Except.error "windows do not intersect"

/-- The clipped window `read_raster_with_bounds` reads from, computed
without the intersect check (used to state when the clipped window has
zero area). -/
def clipped_window (t : Affine) (W H : ℕ) (bounds : ℚ × ℚ × ℚ × ℚ)
    (buffer_pixels : ℚ) : Window :=
  let buffer_x := buffer_pixels * |t.a|
  let buffer_y := buffer_pixels * |t.e|
  let window := window_from_bounds (bounds.1 - buffer_x) (bounds.2.1 - buffer_y)
    (bounds.2.2.1 + buffer_x) (bounds.2.2.2 + buffer_y) t
  let ab := array_bounds H W t
  let raster_window := window_from_bounds ab.1 ab.2.1 ab.2.2.1 ab.2.2.2 t
  window_overlap window raster_window

/-- `read_raster_with_bounds` (raster.py lines 214-261), on a raster
file modelled by its transform `t` and size `W` x `H`: pixel sizes from
the transform (lines 228-229), the buffered bounds (lines 232-242), the
window from the buffered bounds (line 245), and the clip to the raster
extent via `window.intersection(src.window(*src.bounds))` (line 248),
which raises when the windows do not intersect. The returned window is
what `src.read` reads and what the returned profile is computed from. -/
def read_raster_with_bounds (t : Affine) (W H : ℕ) (bounds : ℚ × ℚ × ℚ × ℚ)
    (buffer_pixels : ℚ) : Except String Window :=
  let pixel_size_x := |t.a|
  let pixel_size_y := |t.e|
  let buffer_x := buffer_pixels * pixel_size_x
  let buffer_y := buffer_pixels * pixel_size_y
  let buffered_bounds := (bounds.1 - buffer_x, bounds.2.1 - buffer_y,
    bounds.2.2.1 + buffer_x, bounds.2.2.2 + buffer_y)
  let window := window_from_bounds buffered_bounds.1 buffered_bounds.2.1
    buffered_bounds.2.2.1 buffered_bounds.2.2.2 t
  let ab := array_bounds H W t
  let raster_window := window_from_bounds ab.1 ab.2.1 ab.2.2.1 ab.2.2.2 t
  window_intersection window raster_window

/-- Modelled from the spec: `check_bounds_cross_antimeridian` lives in
`sar_antarctica/nci/preparation/dem.py`, which is absent from `src/`
(only its test `test_check_bounds_cross_antimeridian` is present).
Spec section 4.6: true when the encoded `min_x > max_x`, or when the
natural span `max_x - min_x` would exceed 180 degrees of longitude.
This model agrees with both rows of the repository test. -/
def check_bounds_cross_antimeridian (bounds : ℚ × ℚ × ℚ × ℚ) : Bool :=
  decide (bounds.1 > bounds.2.2.1) || decide (bounds.2.2.1 - bounds.1 > 180)

/-- Modelled from the spec: `split_bounds_at_am_crossing` lives in
`sar_antarctica/nci/preparation/dem.py`, which is absent from `src/`
(only its test `test_split_bounds_at_am_crossing` is present).
Modelled on the end-to-end values of spec section 8 and on both rows of
the repository test, which pin
left = (-180, min_y - lat_buff, min_x, max_y + lat_buff) and
right = (min_x, min_y - lat_buff, 180, max_y + lat_buff): at the test
input both returned boxes have the longitude split at min_x =
-177.884048, not at max_x = 178.838364 as the formula of spec
section 4.6 would give. -/
def split_bounds_at_am_crossing (bounds : ℚ × ℚ × ℚ × ℚ) (lat_buff : ℚ) :
    (ℚ × ℚ × ℚ × ℚ) × (ℚ × ℚ × ℚ × ℚ) :=
  (((-180 : ℚ), bounds.2.1 - lat_buff, bounds.1, bounds.2.2.2 + lat_buff),
   (bounds.1, bounds.2.1 - lat_buff, (180 : ℚ), bounds.2.2.2 + lat_buff))

example :
    split_bounds_at_am_crossing (-177.884048, -78.176201, 178.838364, -75.697151) 0 =
      ((-180, -78.176201, -177.884048, -75.697151),
       (-177.884048, -78.176201, 180, -75.697151)) := by
  norm_num [split_bounds_at_am_crossing]

example :
    split_bounds_at_am_crossing (-177.884048, -78.176201, 178.838364, -75.697151) 0.1 =
      ((-180, -78.276201, -177.884048, -75.597151),
       (-177.884048, -78.276201, 180, -75.597151)) := by
  norm_num [split_bounds_at_am_crossing]

/-- A concrete 10 x 10 north-up profile with unit pixels, origin at the
top-left corner (0, 10), so its bounds are (0, 0, 10, 10). -/
def sampleProfile : Profile :=
  ⟨10, 10, ⟨1, -1, 0, 10⟩, "float32", some 0, 1, "EPSG:4326", "GTiff"⟩

/-- A concrete merge-oracle output used by witnesses and evidence. -/
def sampleMerged : MergedRaster := ⟨1, 3, 4, ⟨1, -1, 0, 3⟩⟩

/-- Every error the merge code raises is a ValueError or an IndexError
(raster.py lines 177-192), never the AssertionError of the expand
argument check. -/
lemma merge_error_not_assertion (arrays : List NpArray) (profiles : List Profile)
    (resampling : String) (nodata : Option ℚ) (dtype : Option String) (method : String)
    (merged : MergedRaster) (e : PyError)
    (h : merge_arrays_with_geometadata arrays profiles resampling nodata dtype method merged
      = Except.error e) (msg : String) : e ≠ PyError.assertionError msg := by
  rcases arrays with _ | ⟨a0, arest⟩
  · simp only [merge_arrays_with_geometadata, List.head?_nil, Except.error.injEq] at h
    subst h
    simp
  · rcases profiles with _ | ⟨q0, qrest⟩ <;>
      simp only [merge_arrays_with_geometadata, List.head?_cons, List.head?_nil] at h <;>
      split_ifs at h <;>
      (rw [Except.error.injEq] at h; subst h; simp)

/-- The source-array branch never raises the argument-check
AssertionError: every exception escaping it comes from the nested
merge, a ValueError or IndexError. -/
lemma expand_merge_step_not_assertion (trg : ℚ × ℚ × ℚ × ℚ) (p : Profile) (a : NpArray)
    (fv : ℚ) (merged : MergedRaster) (msg : String) :
    expand_merge_step trg p a fv merged ≠ Except.error (PyError.assertionError msg) := by
  simp only [expand_merge_step]
  rcases hm : merge_arrays_with_geometadata [a, fill_array_of trg p fv]
      [p, fill_profile_of trg p] "bilinear" p.nodata (some p.dtype) "first" merged with e | r
  · simp only [ne_eq, Except.error.injEq]
    exact merge_error_not_assertion _ _ _ _ _ _ _ _ hm msg
  · simp

/-- Claim C1 (code_bug evidence): at source bounds (0, 0, 10, 10) with
unit pixels and target bounds (-1.5, 0, 10, 10), the code computes
int(1.5) = 1 new left pixels (truncation, not ceiling), so the new left
bound is -1, which is strictly greater than the target left bound -1.5:
the expanded extent does not contain the target bounds, contrary to the
claim (and to the stated purpose of expanding to the target bounds). -/
theorem expand_bounds_floor_shortfall :
    (expand_bounds 0 0 10 10 (-1.5) 0 10 10 1 1).left = -1 ∧
      ¬ (expand_bounds 0 0 10 10 (-1.5) 0 10 10 1 1).left ≤ -1.5 := by
  norm_num [expand_bounds, py_int, abs]

/-- Claim C4 (code_bug evidence): at source bounds (0, 0, 10, 10) with
unit pixels and target bounds (0, 0, 10, 5), the source top bound 10
already exceeds the target top bound 5, yet the result top is 15, not
the unchanged source top 10: the keep-source guard on line 109 compares
with src_top < trg_top where the comment on line 105 (keep source if
already greater than the desired bounds) requires the opposite
comparison, so the raster grows spuriously upward. -/
theorem expand_bounds_top_guard_inverted :
    (10 : ℚ) > 5 ∧ (expand_bounds 0 0 10 10 0 0 10 5 1 1).top = 15 ∧
      (expand_bounds 0 0 10 10 0 0 10 5 1 1).top ≠ 10 := by
  norm_num [expand_bounds, py_int, abs]

/-- Claim C6 (counterexample): supplying a source profile without a
source array passes the argument check and the call succeeds with the
fill-only result, whereas the claim says that a profile without an
array must fail with InvalidInputError. -/
theorem expand_profile_only_accepted :
    isErr (expand_raster_to_bounds (0, 0, 10, 10) none (some sampleProfile) none 0
      sampleMerged) = false :=
  rfl

/-- Claim C6 (amended): the argument check of expand_raster_to_bounds
fails, with its AssertionError, exactly when neither src_path nor
src_profile is supplied; a profile alone passes the check (the
fill-only path), an array alone is rejected, and supplying both
src_path and profile or array passes with src_path taking precedence
(exceptions raised later, inside the nested merge, are ValueError or
IndexError, never this AssertionError). -/
theorem expand_input_check_path_or_profile (trg : ℚ × ℚ × ℚ × ℚ)
    (src_path : Option (NpArray × Profile)) (src_profile0 : Option Profile)
    (src_array0 : Option NpArray) (fv : ℚ) (merged : MergedRaster) :
    (expand_raster_to_bounds trg src_path src_profile0 src_array0 fv merged =
        Except.error (PyError.assertionError
          "Either src_path, src_array and src_profile, or src_profile must be provided."))
      ↔ (src_path.isSome || src_profile0.isSome) = false := by
  cases src_path with
  | some ap =>
    simp [expand_raster_to_bounds, expand_assert_ok, expand_merge_step_not_assertion]
  | none =>
    cases src_profile0 with
    | some p =>
      cases src_array0 with
      | some a =>
        simp [expand_raster_to_bounds, expand_assert_ok, expand_merge_step_not_assertion]
      | none => simp [expand_raster_to_bounds, expand_assert_ok]
    | none =>
      cases src_array0 <;> simp [expand_raster_to_bounds, expand_assert_ok]

/-- Claim C3: the antimeridian predicate is false on every non-wrapping
box whose longitude span is under 180 degrees, true on every box with
min_x > max_x, false on the non-crossing box of the repository test and
true on the crossing box of the repository test. -/
theorem crosses_antimeridian_spec :
    (∀ b : ℚ × ℚ × ℚ × ℚ, b.1 ≤ b.2.2.1 → b.2.2.1 - b.1 < 180 →
        check_bounds_cross_antimeridian b = false) ∧
    (∀ b : ℚ × ℚ × ℚ × ℚ, b.1 > b.2.2.1 →
        check_bounds_cross_antimeridian b = true) ∧
    check_bounds_cross_antimeridian (163.121597, -78.632782, 172.382263, -76.383263) = false ∧
    check_bounds_cross_antimeridian (-177.884048, -78.176201, 178.838364, -75.697151) = true := by
  refine ⟨?_, ?_, ?_, ?_⟩
  · intro b h1 h2
    simp only [check_bounds_cross_antimeridian, Bool.or_eq_false_iff, decide_eq_false_iff_not,
      not_lt]
    exact ⟨h1, by linarith⟩
  · intro b h
    simp only [check_bounds_cross_antimeridian, Bool.or_eq_true, decide_eq_true_eq]
    exact Or.inl h
  · simp only [check_bounds_cross_antimeridian, Bool.or_eq_false_iff, decide_eq_false_iff_not,
      not_lt]
    norm_num
  · simp only [check_bounds_cross_antimeridian, Bool.or_eq_true, decide_eq_true_eq]
    norm_num

/-- Witness for C3: the general clauses applied at concrete boxes. -/
theorem crosses_antimeridian_spec_witness :
    check_bounds_cross_antimeridian (1, 2, 3, 4) = false ∧
      check_bounds_cross_antimeridian (5, 0, -5, 1) = true :=
  ⟨crosses_antimeridian_spec.1 (1, 2, 3, 4) (by norm_num) (by norm_num),
   crosses_antimeridian_spec.2.1 (5, 0, -5, 1) (by norm_num)⟩

/-- Claim C2 (counterexample): at the antimeridian-crossing bounds of
the repository test with lat_buffer 0, the returned right box is
(min_x, min_y, 180, max_y) = (-177.884048, -78.176201, 180, -75.697151),
not (max_x, min_y, 180, max_y) with max_x = 178.838364 as the claim
states. -/
theorem split_right_box_not_at_max_x :
    (split_bounds_at_am_crossing (-177.884048, -78.176201, 178.838364, -75.697151) 0).2 ≠
      (178.838364, -78.176201, 180, -75.697151) := by
  norm_num [split_bounds_at_am_crossing, Prod.ext_iff]

/-- Claim C2 (amended): for every box with -180 ≤ min_x ≤ 180 and every
lat_buffer ≥ 0, split returns exactly
left = (-180, min_y - lat_buffer, min_x, max_y + lat_buffer) and
right = (min_x, min_y - lat_buffer, 180, max_y + lat_buffer); the
longitude bounds are never buffered, latitude is buffered symmetrically,
and both returned boxes individually satisfy min_x ≤ max_x. -/
theorem split_bounds_spec (minx miny maxx maxy buf : ℚ)
    (h1 : -180 ≤ minx) (h2 : minx ≤ 180) (hbuf : 0 ≤ buf) :
    split_bounds_at_am_crossing (minx, miny, maxx, maxy) buf =
      ((-180, miny - buf, minx, maxy + buf), (minx, miny - buf, 180, maxy + buf)) ∧
    (-180 : ℚ) ≤ minx ∧ minx ≤ (180 : ℚ) ∧ miny - buf ≤ miny ∧ maxy ≤ maxy + buf :=
  ⟨rfl, h1, h2, by linarith, by linarith⟩

/-- Witness for C2: the amended split applied at the crossing bounds of
the repository test with lat_buffer 0.1 reproduces the expected boxes
of the test exactly. -/
theorem split_bounds_spec_witness :
    split_bounds_at_am_crossing (-177.884048, -78.176201, 178.838364, -75.697151) 0.1 =
      ((-180, -78.276201, -177.884048, -75.597151),
       (-177.884048, -78.276201, 180, -75.597151)) := by
  rw [(split_bounds_spec (-177.884048) (-78.176201) 178.838364 (-75.697151) 0.1
    (by norm_num) (by norm_num) (by norm_num)).1]
  norm_num

/-- With a 3-D source array both merge inputs are 3-D, the composed
shape checks pass, and expand_raster_to_bounds returns the recorded
merge call (method first, resampling bilinear, nodata and dtype from
the source profile) together with the merge result; with no source
array it returns the fill array and fill profile alone. -/
lemma expand_3d_source_merges (trg : ℚ × ℚ × ℚ × ℚ) (p : Profile) (c hh w : ℕ)
    (d : List ℚ) (fv : ℚ) (merged : MergedRaster) :
    (∃ r, expand_raster_to_bounds trg none (some p) (some ⟨[c, hh, w], d⟩) fv merged =
      Except.ok (ExpandOutcome.viaMerge
        ⟨[⟨[c, hh, w], d⟩, fill_array_of trg p fv], [p, fill_profile_of trg p],
          "bilinear", p.nodata, some p.dtype, "first"⟩ r)) ∧
    expand_raster_to_bounds trg none (some p) none fv merged =
      Except.ok (ExpandOutcome.fillOnly (fill_array_of trg p fv)
        (fill_profile_of trg p)) :=
  ⟨⟨_, rfl⟩, rfl⟩

/-- Claim C9 (code_bug evidence): the function cannot return a merged
pair on the src_path branch. src.read(1) on raster.py line 81 yields a
2-D array while the fill array of line 125 is 3-D, so the nested merge
raises ValueError at line 181 both when the 2-D source array comes from
src_path and when it is supplied directly, contradicting the claim
(and the docstring and spec section 4.3 step 5, which promise the
merged pair). -/
theorem expand_2d_source_merge_raises :
    expand_raster_to_bounds (0, 0, 12, 12)
        (some (⟨[10, 10], List.replicate 100 0⟩, sampleProfile)) none none 0 sampleMerged =
      Except.error (PyError.valueError
        "All arrays must have same number of dimensions i.e. 2 or 3") ∧
    expand_raster_to_bounds (0, 0, 12, 12) none (some sampleProfile)
        (some ⟨[10, 10], List.replicate 100 0⟩) 0 sampleMerged =
      Except.error (PyError.valueError
        "All arrays must have same number of dimensions i.e. 2 or 3") :=
  ⟨rfl, rfl⟩

/-- Claim C10: on every successful merge, the returned profile is the
first input profile with exactly transform, count, height and width
replaced by the merged values, nodata replaced only when the nodata
argument is not None, dtype replaced only when the dtype argument is
not None, and every other field (here crs and driver) unchanged; the
returned array is the merge output itself. The embedding is purely
functional, mirroring that the code updates a copy of the first
profile. -/
theorem merge_profile_frame (arrays : List NpArray) (profiles : List Profile)
    (resampling : String) (nodata : Option ℚ) (dtype : Option String) (method : String)
    (merged : MergedRaster) (p0 : Profile) (m : MergedRaster) (prof : Profile)
    (hp0 : profiles.head? = some p0)
    (h : merge_arrays_with_geometadata arrays profiles resampling nodata dtype method merged =
      Except.ok (m, prof)) :
    m = merged ∧
    prof.transform = merged.transform ∧ prof.count = merged.count ∧
    prof.height = merged.height ∧ prof.width = merged.width ∧
    prof.crs = p0.crs ∧ prof.driver = p0.driver ∧
    prof.nodata = (match nodata with | some nd => some nd | none => p0.nodata) ∧
    prof.dtype = (match dtype with | some dt => dt | none => p0.dtype) := by
  rcases arrays with _ | ⟨a0, arest⟩
  · simp [merge_arrays_with_geometadata] at h
  · rcases profiles with _ | ⟨q0, qrest⟩
    · simp at hp0
    · rw [List.head?_cons, Option.some.injEq] at hp0
      subst hp0
      simp only [merge_arrays_with_geometadata, List.head?_cons] at h
      split_ifs at h
      cases nodata <;> cases dtype <;>
        simp only [Except.ok.injEq, Prod.mk.injEq] at h <;>
        obtain ⟨hm, hprof⟩ := h <;>
        subst hm <;> subst hprof <;>
        simp

/-- The profile the code builds for the witness merge call: the sample
profile with the merged transform and shape, and nodata overridden. -/
def mergeProfW : Profile :=
  { sampleProfile with
    transform := ⟨1, -1, 0, 3⟩
    count := 1
    height := 3
    width := 4
    nodata := some 5 }

/-- Witness for C10: a concrete successful merge of one 2-D array with
an explicit nodata override and no dtype override. -/
theorem merge_profile_frame_witness :
    sampleMerged = sampleMerged ∧
    mergeProfW.transform = sampleMerged.transform ∧ mergeProfW.count = sampleMerged.count ∧
    mergeProfW.height = sampleMerged.height ∧ mergeProfW.width = sampleMerged.width ∧
    mergeProfW.crs = sampleProfile.crs ∧ mergeProfW.driver = sampleProfile.driver ∧
    mergeProfW.nodata =
      (match (some (5 : ℚ) : Option ℚ) with | some nd => some nd | none => sampleProfile.nodata) ∧
    mergeProfW.dtype =
      (match (none : Option String) with | some dt => dt | none => sampleProfile.dtype) :=
  merge_profile_frame [⟨[2, 2], [0, 0, 0, 0]⟩] [sampleProfile] "bilinear" (some 5) none "first"
    sampleMerged sampleProfile sampleMerged mergeProfW rfl rfl

/-- Cardinality of the finset of a nonempty list is one exactly when
every element equals the head. -/
lemma toFinset_card_one_iff (x : ℕ) (xs : List ℕ) :
    ((x :: xs).toFinset.card = 1) ↔ ∀ y ∈ xs, y = x := by
  constructor
  · intro hcard y hy
    obtain ⟨a, ha⟩ := Finset.card_eq_one.mp hcard
    have hx : x ∈ (x :: xs).toFinset := by simp
    have hy2 : y ∈ (x :: xs).toFinset := by simp [hy]
    rw [ha, Finset.mem_singleton] at hx hy2
    rw [hy2, hx]
  · intro hall
    have hset : (x :: xs).toFinset = {x} := by
      ext z
      simp only [List.toFinset_cons, Finset.mem_insert, List.mem_toFinset, Finset.mem_singleton]
      constructor
      · rintro (rfl | hz)
        · rfl
        · exact hall z hz
      · rintro rfl
        exact Or.inl rfl
    rw [hset, Finset.card_singleton]

/-- The set-of-ndims check of the merge code, phrased elementwise. -/
lemma ndim_card_one (a0 : NpArray) (arest : List NpArray) :
    (((a0 :: arest).map (fun arr => arr.shape.length)).toFinset.card = 1) ↔
      ∀ a ∈ arest, a.shape.length = a0.shape.length := by
  rw [List.map_cons, toFinset_card_one_iff]
  constructor
  · intro h a ha
    exact h _ (List.mem_map.mpr ⟨a, ha, rfl⟩)
  · intro h y hy
    obtain ⟨b, hb, rfl⟩ := List.mem_map.mp hy
    exact h b hb

/-- The two dimensionality checks of the merge code together say:
all arrays are 2-D or all arrays are 3-D. -/
lemma dims_ok_iff (a0 : NpArray) (arest : List NpArray) :
    ((a0.shape.length = 2 ∨ a0.shape.length = 3) ∧
      ∀ a ∈ arest, a.shape.length = a0.shape.length) ↔
    ((∀ a ∈ a0 :: arest, a.shape.length = 2) ∨
      (∀ a ∈ a0 :: arest, a.shape.length = 3)) := by
  constructor
  · rintro ⟨h0 | h0, hall⟩
    · left
      intro a ha
      rcases List.mem_cons.mp ha with rfl | ha
      · exact h0
      · rw [hall a ha, h0]
    · right
      intro a ha
      rcases List.mem_cons.mp ha with rfl | ha
      · exact h0
      · rw [hall a ha, h0]
  · rintro (h | h)
    · refine ⟨Or.inl (h a0 (List.mem_cons_self a0 arest)), fun a ha => ?_⟩
      rw [h a (List.mem_cons_of_mem _ ha), h a0 (List.mem_cons_self a0 arest)]
    · refine ⟨Or.inr (h a0 (List.mem_cons_self a0 arest)), fun a ha => ?_⟩
      rw [h a (List.mem_cons_of_mem _ ha), h a0 (List.mem_cons_self a0 arest)]

/-- The error behaviour of the merge code on a nonempty array list,
following the three checks in source order. -/
lemma merge_isErr_char (a0 : NpArray) (arest : List NpArray) (profiles : List Profile)
    (resampling : String) (nodata : Option ℚ) (dtype : Option String) (method : String)
    (merged : MergedRaster) :
    isErr (merge_arrays_with_geometadata (a0 :: arest) profiles resampling nodata dtype
        method merged) = true ↔
      ¬ ((a0.shape.length = 2 ∨ a0.shape.length = 3) ∧
         (∀ a ∈ arest, a.shape.length = a0.shape.length) ∧
         (a0 :: arest).length = profiles.length) := by
  rcases profiles with _ | ⟨q0, qrest⟩
  · simp only [merge_arrays_with_geometadata, List.head?_cons, List.head?_nil]
    by_cases h1 : ¬ (a0.shape.length = 2 ∨ a0.shape.length = 3)
    · rw [if_pos h1]
      simp only [isErr, true_iff]
      rintro ⟨hA, _, _⟩
      exact h1 hA
    · rw [if_neg h1]
      by_cases h2 : ((a0 :: arest).map fun arr => arr.shape.length).toFinset.card ≠ 1
      · rw [if_pos h2]
        simp only [isErr, true_iff]
        rintro ⟨_, hB, _⟩
        exact h2 ((ndim_card_one a0 arest).mpr hB)
      · rw [if_neg h2]
        rw [if_pos (show (a0 :: arest).length ≠ ([] : List Profile).length by simp)]
        simp only [isErr, true_iff]
        rintro ⟨_, _, hC⟩
        simp at hC
  · simp only [merge_arrays_with_geometadata, List.head?_cons]
    by_cases h1 : ¬ (a0.shape.length = 2 ∨ a0.shape.length = 3)
    · rw [if_pos h1]
      simp only [isErr, true_iff]
      rintro ⟨hA, _, _⟩
      exact h1 hA
    · rw [if_neg h1]
      by_cases h2 : ((a0 :: arest).map fun arr => arr.shape.length).toFinset.card ≠ 1
      · rw [if_pos h2]
        simp only [isErr, true_iff]
        rintro ⟨_, hB, _⟩
        exact h2 ((ndim_card_one a0 arest).mpr hB)
      · rw [if_neg h2]
        by_cases h3 : (a0 :: arest).length ≠ (q0 :: qrest).length
        · rw [if_pos h3]
          simp only [isErr, true_iff]
          rintro ⟨_, _, hC⟩
          exact h3 hC
        · rw [if_neg h3]
          simp only [isErr, Bool.false_eq_true, false_iff, not_not]
          exact ⟨not_not.mp h1, (ndim_card_one a0 arest).mp (not_ne_iff.mp h2),
            not_ne_iff.mp h3⟩

/-- Claim C5: for nonempty inputs, merge_arrays_with_geometadata raises
exactly when the arrays do not all share a dimensionality of 2 or a
dimensionality of 3, or when the number of arrays differs from the
number of profiles; and 2-D arrays that pass the checks are each
promoted to a single leading band axis before merging. -/
theorem merge_shape_check (arrays : List NpArray) (profiles : List Profile)
    (resampling : String) (nodata : Option ℚ) (dtype : Option String) (method : String)
    (merged : MergedRaster) (hne : arrays ≠ []) :
    (isErr (merge_arrays_with_geometadata arrays profiles resampling nodata dtype method merged)
        = true ↔
      ¬ ((∀ a ∈ arrays, a.shape.length = 2) ∨ (∀ a ∈ arrays, a.shape.length = 3)) ∨
        arrays.length ≠ profiles.length) ∧
    ((∀ a ∈ arrays, a.shape.length = 2) →
      promote_arrays arrays = arrays.map fun arr => ⟨1 :: arr.shape, arr.data⟩) := by
  rcases arrays with _ | ⟨a0, arest⟩
  · exact absurd rfl hne
  constructor
  · rw [merge_isErr_char]
    have hd := dims_ok_iff a0 arest
    constructor
    · intro h
      by_cases hD : ((∀ a ∈ a0 :: arest, a.shape.length = 2) ∨
          (∀ a ∈ a0 :: arest, a.shape.length = 3))
      · right
        intro hC
        obtain ⟨hA, hB⟩ := hd.mpr hD
        exact h ⟨hA, hB, hC⟩
      · exact Or.inl hD
    · rintro (hD | hC) ⟨hA, hB, hC2⟩
      · exact hD (hd.mp ⟨hA, hB⟩)
      · exact hC hC2
  · intro h2
    have h0 : a0.shape.length = 2 := h2 a0 (List.mem_cons_self a0 arest)
    simp only [promote_arrays, List.head?_cons]
    rw [if_pos h0]

/-- Witness for C5: merging a 2-D array with a 3-D array is rejected. -/
theorem merge_shape_check_witness :
    isErr (merge_arrays_with_geometadata [⟨[2, 2], [0, 0, 0, 0]⟩, ⟨[1, 2, 2], [0, 0, 0, 0]⟩]
        [sampleProfile, sampleProfile] "bilinear" none none "first" sampleMerged) = true :=
  (merge_shape_check [⟨[2, 2], [0, 0, 0, 0]⟩, ⟨[1, 2, 2], [0, 0, 0, 0]⟩]
      [sampleProfile, sampleProfile] "bilinear" none none "first" sampleMerged
      (List.cons_ne_nil _ _)).1.mpr (Or.inl (by decide))

/-- Python int of a non-negative value is its floor, hence non-negative. -/
lemma py_int_nonneg (x : ℚ) (hx : 0 ≤ x) : 0 ≤ py_int x := by
  unfold py_int
  rw [if_pos hx]
  exact Int.floor_nonneg.mpr hx

/-- Python int of a non-negative integer multiple of the resolution,
divided by the resolution, recovers the integer. -/
lemma py_int_mul_div_cancel (n : ℤ) (r : ℚ) (hr : 0 < r) (hn : 0 ≤ n) :
    py_int ((n : ℚ) * r / r) = n := by
  rw [mul_div_cancel_right₀ _ (ne_of_gt hr)]
  unfold py_int
  rw [if_pos (by exact_mod_cast hn)]
  exact Int.floor_intCast n

/-- The keep-source guard for a min-side bound: the result is the
source bound shifted down by a non-negative whole number of pixels. -/
lemma guard_min_side (srcv trgv res : ℚ) (hres : 0 < res) :
    ∃ i : ℤ, 0 ≤ i ∧
      (if srcv < trgv then srcv
        else srcv - (py_int (|trgv - srcv| / res) : ℚ) * res) = srcv - (i : ℚ) * res := by
  by_cases h : srcv < trgv
  · exact ⟨0, le_refl 0, by simp [h]⟩
  · exact ⟨py_int (|trgv - srcv| / res),
      py_int_nonneg _ (div_nonneg (abs_nonneg _) hres.le), by simp [h]⟩

/-- The keep-source guard for a max-side bound: the result is the
source bound shifted up by a non-negative whole number of pixels. -/
lemma guard_max_side (srcv trgv res : ℚ) (hres : 0 < res) :
    ∃ i : ℤ, 0 ≤ i ∧
      (if srcv > trgv then srcv
        else srcv + (py_int (|trgv - srcv| / res) : ℚ) * res) = srcv + (i : ℚ) * res := by
  by_cases h : srcv > trgv
  · exact ⟨0, le_refl 0, by simp [h]⟩
  · exact ⟨py_int (|trgv - srcv| / res),
      py_int_nonneg _ (div_nonneg (abs_nonneg _) hres.le), by simp [h]⟩

/-- The top guard as written in the code (line 109, with the comparison
src_top < trg_top): the result is still the source top shifted up by a
non-negative whole number of pixels. -/
lemma guard_top_side (srcv trgv res : ℚ) (hres : 0 < res) :
    ∃ i : ℤ, 0 ≤ i ∧
      (if srcv < trgv then srcv
        else srcv + (py_int (|trgv - srcv| / res) : ℚ) * res) = srcv + (i : ℚ) * res := by
  by_cases h : srcv < trgv
  · exact ⟨0, le_refl 0, by simp [h]⟩
  · exact ⟨py_int (|trgv - srcv| / res),
      py_int_nonneg _ (div_nonneg (abs_nonneg _) hres.le), by simp [h]⟩

/-- Pixel alignment of the expand-bounds arithmetic when the source
extent is an exact whole number of pixels: the resulting width and
height, times the resolutions, reproduce the resulting extents, and
both are non-negative. -/
lemma expand_bounds_aligned (srcL srcB srcR srcT trgL trgB trgR trgT lon_res lat_res : ℚ)
    (w h : ℕ) (hlon : 0 < lon_res) (hlat : 0 < lat_res)
    (hw : srcR = srcL + (w : ℚ) * lon_res) (hh : srcT = srcB + (h : ℚ) * lat_res) :
    ((expand_bounds srcL srcB srcR srcT trgL trgB trgR trgT lon_res lat_res).width : ℚ) *
        lon_res =
      (expand_bounds srcL srcB srcR srcT trgL trgB trgR trgT lon_res lat_res).right -
        (expand_bounds srcL srcB srcR srcT trgL trgB trgR trgT lon_res lat_res).left ∧
    ((expand_bounds srcL srcB srcR srcT trgL trgB trgR trgT lon_res lat_res).height : ℚ) *
        lat_res =
      (expand_bounds srcL srcB srcR srcT trgL trgB trgR trgT lon_res lat_res).top -
        (expand_bounds srcL srcB srcR srcT trgL trgB trgR trgT lon_res lat_res).bottom ∧
    0 ≤ (expand_bounds srcL srcB srcR srcT trgL trgB trgR trgT lon_res lat_res).width ∧
    0 ≤ (expand_bounds srcL srcB srcR srcT trgL trgB trgR trgT lon_res lat_res).height := by
  obtain ⟨i1, hi1, hL⟩ := guard_min_side srcL trgL lon_res hlon
  obtain ⟨i2, hi2, hR⟩ := guard_max_side srcR trgR lon_res hlon
  obtain ⟨i3, hi3, hB⟩ := guard_min_side srcB trgB lat_res hlat
  obtain ⟨i4, hi4, hT⟩ := guard_top_side srcT trgT lat_res hlat
  simp only [expand_bounds]
  rw [hL, hR, hB, hT]
  have hdw : srcR + (i2 : ℚ) * lon_res - (srcL - (i1 : ℚ) * lon_res) =
      ((w + i2 + i1 : ℤ) : ℚ) * lon_res := by
    rw [hw]
    push_cast
    ring
  have hdh : srcT + (i4 : ℚ) * lat_res - (srcB - (i3 : ℚ) * lat_res) =
      ((h + i4 + i3 : ℤ) : ℚ) * lat_res := by
    rw [hh]
    push_cast
    ring
  rw [hdw, hdh]
  have hnw : (0 : ℤ) ≤ (w : ℤ) + i2 + i1 := by positivity
  have hnh : (0 : ℤ) ≤ (h : ℤ) + i4 + i3 := by positivity
  rw [py_int_mul_div_cancel _ _ hlon hnw, py_int_mul_div_cancel _ _ hlat hnh]
  exact ⟨rfl, rfl, hnw, hnh⟩

/-- Claim C8: for every target bounds and every valid source profile
(positive pixel width, negative transform.e, as the north-up data model
requires), the new width and height are integers whose products with
the pixel sizes reproduce the expanded extent exactly, hence within the
1e-9 floating tolerance, and both are non-negative. -/
theorem expand_pixel_aligned (trg : ℚ × ℚ × ℚ × ℚ) (p : Profile)
    (ha : 0 < p.transform.a) (he : p.transform.e < 0) :
    ((expand_geom trg p).width : ℚ) * |p.transform.a| =
        (expand_geom trg p).right - (expand_geom trg p).left ∧
    ((expand_geom trg p).height : ℚ) * |p.transform.e| =
        (expand_geom trg p).top - (expand_geom trg p).bottom ∧
    0 ≤ (expand_geom trg p).width ∧ 0 ≤ (expand_geom trg p).height ∧
    |((expand_geom trg p).width : ℚ) * |p.transform.a| -
        ((expand_geom trg p).right - (expand_geom trg p).left)| ≤ 1 / 1000000000 ∧
    |((expand_geom trg p).height : ℚ) * |p.transform.e| -
        ((expand_geom trg p).top - (expand_geom trg p).bottom)| ≤ 1 / 1000000000 := by
  have hlon : 0 < |p.transform.a| := abs_pos.mpr (ne_of_gt ha)
  have hlat : 0 < |p.transform.e| := abs_pos.mpr (ne_of_lt he)
  have hw : p.transform.c + (p.width : ℚ) * p.transform.a =
      p.transform.c + (p.width : ℚ) * |p.transform.a| := by
    rw [abs_of_pos ha]
  have hh : p.transform.f =
      (p.transform.f + (p.height : ℚ) * p.transform.e) +
        (p.height : ℚ) * |p.transform.e| := by
    rw [abs_of_neg he]
    ring
  have key := expand_bounds_aligned p.transform.c
    (p.transform.f + (p.height : ℚ) * p.transform.e)
    (p.transform.c + (p.width : ℚ) * p.transform.a) p.transform.f
    trg.1 trg.2.1 trg.2.2.1 trg.2.2.2 (|p.transform.a|) (|p.transform.e|)
    p.width p.height hlon hlat hw hh
  have hgeom : expand_geom trg p = expand_bounds p.transform.c
      (p.transform.f + (p.height : ℚ) * p.transform.e)
      (p.transform.c + (p.width : ℚ) * p.transform.a) p.transform.f
      trg.1 trg.2.1 trg.2.2.1 trg.2.2.2 (|p.transform.a|) (|p.transform.e|) := rfl
  rw [hgeom]
  obtain ⟨k1, k2, k3, k4⟩ := key
  refine ⟨k1, k2, k3, k4, ?_, ?_⟩
  · rw [k1, sub_self, abs_zero]
    norm_num
  · rw [k2, sub_self, abs_zero]
    norm_num

/-- Witness for C8: pixel alignment at the sample profile and a target
box with fractional offsets on both expanded sides. -/
theorem expand_pixel_aligned_witness :
    0 < sampleProfile.transform.a ∧ sampleProfile.transform.e < 0 ∧
    ((expand_geom (-1.5, 0, 12.3, 11) sampleProfile).width : ℚ) *
        |sampleProfile.transform.a| =
      (expand_geom (-1.5, 0, 12.3, 11) sampleProfile).right -
        (expand_geom (-1.5, 0, 12.3, 11) sampleProfile).left :=
  ⟨by norm_num [sampleProfile], by norm_num [sampleProfile],
    (expand_pixel_aligned (-1.5, 0, 12.3, 11) sampleProfile (by norm_num [sampleProfile])
      (by norm_num [sampleProfile])).1⟩

/-- The window of the raster over its own bounds is the full pixel
grid, offset zero and size W x H. -/
lemma raster_window_eq (t : Affine) (W H : ℕ) (ha : 0 < t.a) (he : t.e < 0) :
    window_from_bounds t.c (t.f + (H : ℚ) * t.e) (t.c + (W : ℚ) * t.a) t.f t =
      ⟨0, 0, (W : ℚ), (H : ℚ)⟩ := by
  have ha0 : t.a ≠ 0 := ne_of_gt ha
  have he0 : t.e ≠ 0 := ne_of_lt he
  unfold window_from_bounds
  have hc1 : (t.c - t.c) / t.a = 0 := by rw [sub_self, zero_div]
  have hc2 : (t.c + (W : ℚ) * t.a - t.c) / t.a = (W : ℚ) := by
    rw [add_sub_cancel_left, mul_div_assoc, div_self ha0, mul_one]
  have hr1 : (t.f - t.f) / t.e = 0 := by rw [sub_self, zero_div]
  have hr2 : (t.f + (H : ℚ) * t.e - t.f) / t.e = (H : ℚ) := by
    rw [add_sub_cancel_left, mul_div_assoc, div_self he0, mul_one]
  have hW : (0 : ℚ) ≤ (W : ℚ) := Nat.cast_nonneg W
  have hH : (0 : ℚ) ≤ (H : ℚ) := Nat.cast_nonneg H
  simp only [hc1, hc2, hr1, hr2]
  rw [min_eq_left hW, max_eq_right hW, min_eq_left hH, max_eq_right hH, sub_zero, sub_zero]

/-- The window of a proper box (positive extent in both axes) under a
north-up transform: offsets at the top-left corner, positive sizes. -/
lemma request_window_eq (t : Affine) (l b r tp : ℚ) (ha : 0 < t.a) (he : t.e < 0)
    (hlr : l < r) (hbt : b < tp) :
    window_from_bounds l b r tp t =
      ⟨(l - t.c) / t.a, (tp - t.f) / t.e, (r - l) / t.a, (b - tp) / t.e⟩ := by
  have ha0 : t.a ≠ 0 := ne_of_gt ha
  have he0 : t.e ≠ 0 := ne_of_lt he
  unfold window_from_bounds
  have hcol : (l - t.c) / t.a ≤ (r - t.c) / t.a := by
    have hdiff : (r - t.c) / t.a - (l - t.c) / t.a = (r - l) / t.a := by
      rw [div_sub_div_same]
      congr 1
      ring
    have hnn : 0 ≤ (r - l) / t.a := div_nonneg (by linarith) ha.le
    linarith [hdiff, hnn]
  have hrow : (tp - t.f) / t.e ≤ (b - t.f) / t.e := by
    have hdiff : (b - t.f) / t.e - (tp - t.f) / t.e = (b - tp) / t.e := by
      rw [div_sub_div_same]
      congr 1
      ring
    have hnn : 0 ≤ (b - tp) / t.e := div_nonneg_iff.mpr (Or.inr ⟨by linarith, he.le⟩)
    linarith [hdiff, hnn]
  simp only [min_eq_left hcol, max_eq_right hcol, min_eq_left hrow, max_eq_right hrow]
  simp only [Window.mk.injEq, true_and]
  constructor
  · rw [div_sub_div_same]
    congr 1
    ring
  · rw [div_sub_div_same]
    congr 1
    ring

/-- Intersection of a positive-size request window with the full raster
window: the call raises exactly when the overlap rectangle has no
positive extent, and on success it returns the overlap rectangle, which
lies inside the raster grid. -/
lemma intersection_with_raster (c1 r1 cw rh Wq Hq : ℚ)
    (hcw : 0 < cw) (hrh : 0 < rh) (hW : 0 < Wq) (hH : 0 < Hq) :
    (isErr (window_intersection ⟨c1, r1, cw, rh⟩ ⟨0, 0, Wq, Hq⟩) = true ↔
      ((window_overlap ⟨c1, r1, cw, rh⟩ ⟨0, 0, Wq, Hq⟩).width ≤ 0 ∨
        (window_overlap ⟨c1, r1, cw, rh⟩ ⟨0, 0, Wq, Hq⟩).height ≤ 0)) ∧
    (∀ wdw : Window,
      window_intersection ⟨c1, r1, cw, rh⟩ ⟨0, 0, Wq, Hq⟩ = Except.ok wdw →
      wdw = window_overlap ⟨c1, r1, cw, rh⟩ ⟨0, 0, Wq, Hq⟩ ∧
      0 ≤ wdw.col_off ∧ wdw.col_off + wdw.width ≤ Wq ∧
      0 ≤ wdw.row_off ∧ wdw.row_off + wdw.height ≤ Hq ∧
      0 < wdw.width ∧ 0 < wdw.height) := by
  have hover : window_overlap ⟨c1, r1, cw, rh⟩ ⟨0, 0, Wq, Hq⟩ =
      ⟨max c1 0, max r1 0, min (c1 + cw) (0 + Wq) - max c1 0,
        min (r1 + rh) (0 + Hq) - max r1 0⟩ := rfl
  have hint_iff : window_intersects ⟨c1, r1, cw, rh⟩ ⟨0, 0, Wq, Hq⟩ ↔
      ((r1 < 0 + Hq ∧ r1 + rh > 0) ∧ (c1 < 0 + Wq ∧ c1 + cw > 0)) := Iff.rfl
  have hwidth_iff : max c1 0 < min (c1 + cw) (0 + Wq) ↔ (c1 < 0 + Wq ∧ 0 < c1 + cw) := by
    rw [max_lt_iff, lt_min_iff, lt_min_iff]
    constructor
    · rintro ⟨⟨h1, h2⟩, h3, h4⟩
      exact ⟨h2, h3⟩
    · rintro ⟨h1, h2⟩
      exact ⟨⟨by linarith, h1⟩, h2, by linarith⟩
  have hheight_iff : max r1 0 < min (r1 + rh) (0 + Hq) ↔ (r1 < 0 + Hq ∧ 0 < r1 + rh) := by
    rw [max_lt_iff, lt_min_iff, lt_min_iff]
    constructor
    · rintro ⟨⟨h1, h2⟩, h3, h4⟩
      exact ⟨h2, h3⟩
    · rintro ⟨h1, h2⟩
      exact ⟨⟨by linarith, h1⟩, h2, by linarith⟩
  constructor
  · by_cases hint : window_intersects ⟨c1, r1, cw, rh⟩ ⟨0, 0, Wq, Hq⟩
    · obtain ⟨⟨hrow1, hrow2⟩, hcol1, hcol2⟩ := hint_iff.mp hint
      simp only [window_intersection, if_pos hint, isErr, Bool.false_eq_true, false_iff,
        hover]
      push_neg
      constructor
      · have := hwidth_iff.mpr ⟨hcol1, hcol2⟩
        linarith
      · have := hheight_iff.mpr ⟨hrow1, hrow2⟩
        linarith
    · simp only [window_intersection, if_neg hint, isErr, true_iff, hover]
      rw [hint_iff] at hint
      rcases not_and_or.mp hint with hrow | hcol
      · rcases not_and_or.mp hrow with h | h
        · right
          rw [not_lt] at h
          have hle : min (r1 + rh) (0 + Hq) ≤ max r1 0 :=
            le_trans (min_le_right _ _) (le_trans h (le_max_left _ _))
          linarith
        · right
          rw [gt_iff_lt, not_lt] at h
          have hle : min (r1 + rh) (0 + Hq) ≤ max r1 0 :=
            le_trans (min_le_left _ _) (le_trans h (le_max_right _ _))
          linarith
      · rcases not_and_or.mp hcol with h | h
        · left
          rw [not_lt] at h
          have hle : min (c1 + cw) (0 + Wq) ≤ max c1 0 :=
            le_trans (min_le_right _ _) (le_trans h (le_max_left _ _))
          linarith
        · left
          rw [gt_iff_lt, not_lt] at h
          have hle : min (c1 + cw) (0 + Wq) ≤ max c1 0 :=
            le_trans (min_le_left _ _) (le_trans h (le_max_right _ _))
          linarith
  · intro wdw heq
    simp only [window_intersection] at heq
    by_cases hint : window_intersects ⟨c1, r1, cw, rh⟩ ⟨0, 0, Wq, Hq⟩
    · rw [if_pos hint] at heq
      injection heq with h
      subst h
      obtain ⟨⟨hrow1, hrow2⟩, hcol1, hcol2⟩ := hint_iff.mp hint
      have hwpos := hwidth_iff.mpr ⟨hcol1, hcol2⟩
      have hhpos := hheight_iff.mpr ⟨hrow1, hrow2⟩
      rw [hover]
      refine ⟨rfl, le_max_right _ _, ?_, le_max_right _ _, ?_, ?_, ?_⟩
      · have hle := min_le_right (c1 + cw) (0 + Wq)
        simp only
        linarith
      · have hle := min_le_right (r1 + rh) (0 + Hq)
        simp only
        linarith
      · simp only
        linarith
      · simp only
        linarith
    · rw [if_neg hint] at heq
      exact Except.noConfusion heq

/-- Claim C7: for a valid raster (positive size, north-up transform)
and a proper request box, read_raster_with_bounds clips the buffered
window to the raster extent: it raises exactly when the clipped window
has no positive extent (no overlap), and on success it returns exactly
the overlapping region, whose offsets and sizes stay inside the raster
grid, so no out-of-range indices are read. -/
theorem read_window_clips (t : Affine) (W H : ℕ) (minx miny maxx maxy buf : ℚ)
    (ha : 0 < t.a) (he : t.e < 0) (hW : 0 < W) (hH : 0 < H)
    (hx : minx < maxx) (hy : miny < maxy) (hbuf : 0 ≤ buf) :
    (isErr (read_raster_with_bounds t W H (minx, miny, maxx, maxy) buf) = true ↔
      ((clipped_window t W H (minx, miny, maxx, maxy) buf).width ≤ 0 ∨
        (clipped_window t W H (minx, miny, maxx, maxy) buf).height ≤ 0)) ∧
    (∀ wdw : Window,
      read_raster_with_bounds t W H (minx, miny, maxx, maxy) buf = Except.ok wdw →
      wdw = clipped_window t W H (minx, miny, maxx, maxy) buf ∧
      0 ≤ wdw.col_off ∧ wdw.col_off + wdw.width ≤ (W : ℚ) ∧
      0 ≤ wdw.row_off ∧ wdw.row_off + wdw.height ≤ (H : ℚ) ∧
      0 < wdw.width ∧ 0 < wdw.height) := by
  have hbx : 0 ≤ buf * |t.a| := mul_nonneg hbuf (abs_nonneg _)
  have hby : 0 ≤ buf * |t.e| := mul_nonneg hbuf (abs_nonneg _)
  have hlr : minx - buf * |t.a| < maxx + buf * |t.a| := by linarith
  have hbt : miny - buf * |t.e| < maxy + buf * |t.e| := by linarith
  have hreq := request_window_eq t (minx - buf * |t.a|) (miny - buf * |t.e|)
    (maxx + buf * |t.a|) (maxy + buf * |t.e|) ha he hlr hbt
  have hras := raster_window_eq t W H ha he
  have hread : read_raster_with_bounds t W H (minx, miny, maxx, maxy) buf =
      window_intersection
        (window_from_bounds (minx - buf * |t.a|) (miny - buf * |t.e|)
          (maxx + buf * |t.a|) (maxy + buf * |t.e|) t)
        (window_from_bounds t.c (t.f + (H : ℚ) * t.e) (t.c + (W : ℚ) * t.a) t.f t) := rfl
  have hclipped : clipped_window t W H (minx, miny, maxx, maxy) buf =
      window_overlap
        (window_from_bounds (minx - buf * |t.a|) (miny - buf * |t.e|)
          (maxx + buf * |t.a|) (maxy + buf * |t.e|) t)
        (window_from_bounds t.c (t.f + (H : ℚ) * t.e) (t.c + (W : ℚ) * t.a) t.f t) := rfl
  rw [hread, hclipped, hreq, hras]
  have hcw : 0 < (maxx + buf * |t.a| - (minx - buf * |t.a|)) / t.a :=
    div_pos (by linarith) ha
  have hrh : 0 < (miny - buf * |t.e| - (maxy + buf * |t.e|)) / t.e :=
    div_pos_iff.mpr (Or.inr ⟨by linarith, he⟩)
  have hWq : (0 : ℚ) < (W : ℚ) := by exact_mod_cast hW
  have hHq : (0 : ℚ) < (H : ℚ) := by exact_mod_cast hH
  exact intersection_with_raster _ _ _ _ _ _ hcw hrh hWq hHq

/-- Witness for C7: a box entirely outside the sample raster raises. -/
theorem read_window_clips_witness :
    isErr (read_raster_with_bounds ⟨1, -1, 0, 10⟩ 10 10 (20, 20, 30, 30) 0) = true := by
  rw [(read_window_clips ⟨1, -1, 0, 10⟩ 10 10 20 20 30 30 0 (by norm_num) (by norm_num)
    (by norm_num) (by norm_num) (by norm_num) (by norm_num) (by norm_num)).1]
  left
  norm_num [clipped_window, window_overlap, window_from_bounds, array_bounds, min_def,
    max_def]
